import Mathlib

/-!
Verification of the rollup loader plugin in `src/v8env/src/compiler/loader.ts`.

The plugin exposes two hooks:
* `options({input})` captures the build's entry inputs, normalising a single
  string to a one-element array and an object to the array of its values;
* `transformChunk(code, outputOptions, chunk)` validates the output options,
  splices the chunk text from the anonymous AMD form `define(...)` into the
  named form `define("./<chunk.id>", [deps], ...)` via a MagicString buffer,
  memoizes the `Promise.all(inputs.map(id => this.resolveId(id)))` resolution
  in the per-build field `resolvedInputs`, and returns the rewritten
  `{code, map}` through `resolvedInputs.then(...)`.

JS strings are modelled as character sequences (`List Char`); JS promises are
modelled by the data they resolve: the shared resolution promise is identified
by the list of specifiers it resolves, and settling it is an explicit function
of a resolver `String → Except String String`. The `magic-string` buffer keeps
its bounds check: `remove(start, end)` throws `Character is out of bounds`
when the removed range reaches past the original text, so chunk code shorter
than the `define(` token makes the transform throw synchronously before the
resolution block is reached.
-/

/-- JS strings, modelled as sequences of characters. -/
abbrev JSString := List Char

/-- Embed a Lean string literal as a JS string. -/
def js (s : String) : JSString := s.data

/-- A synchronously thrown `new Error(msg)`, raised by the loader itself or by
the `magic-string` library it calls. -/
inductive LoaderError where
  | thrown (msg : String)
deriving Repr, DecidableEq

/-- Model of the `magic-string` buffer restricted to the operations the loader
uses: construction, `remove` of a range of the original text, `prepend`, and
`toString`. `intro` is the accumulated prepended content, `original` the
construction-time text (kept by magic-string and used for bounds checks),
`body` the (edited) text. -/
structure MagicString where
  intro : JSString
  original : JSString
  body : JSString
deriving Repr, DecidableEq

/-- `new MagicString(code)` -/
def MagicString.ofString (code : JSString) : MagicString := ⟨[], code, code⟩

/-- `magicCode.remove(start, end)` from magic-string: a no-op when
`start == end`; throws "Character is out of bounds" when the range reaches
past the original text; throws "end must be greater than start" when
`start > end`; otherwise deletes the characters in `[start, end)` from the
body. -/
def MagicString.remove (m : MagicString) (start stop : Nat) :
    Except LoaderError MagicString :=
  if start = stop then .ok m
  else if stop > m.original.length then
    .error (.thrown "Character is out of bounds")
  else if start > stop then
    .error (.thrown "end must be greater than start")
  else .ok ⟨m.intro, m.original, m.body.take start ++ m.body.drop stop⟩

/-- `magicCode.prepend(s)`: content prepended later ends up further in front. -/
def MagicString.prepend (m : MagicString) (s : JSString) : MagicString :=
  ⟨s ++ m.intro, m.original, m.body⟩

/-- `magicCode.toString()` -/
def MagicString.toString (m : MagicString) : JSString := m.intro ++ m.body

/-- The source map returned by `magicCode.generateMap({hires: true})`; no claim
inspects the mappings, so only the option record is carried. -/
structure SourceMap where
  hires : Bool
deriving Repr, DecidableEq

/-- `magicCode.generateMap({hires})` -/
def MagicString.generateMap (_m : MagicString) (hires : Bool) : SourceMap :=
  ⟨hires⟩

/-- The `outputOptions` record consumed by `transformChunk`: `banner` is
`none` when absent (JS `undefined`). -/
structure OutputOptions where
  format : String
  banner : Option String
deriving Repr, DecidableEq

/-- The chunk descriptor; only `chunk.id` is read by the loader. -/
structure Chunk where
  id : String
deriving Repr, DecidableEq

/-- The `{code, map}` record delivered by a chunk transform. -/
structure TransformResult where
  code : JSString
  map : SourceMap
deriving Repr, DecidableEq

/-- The deferred value `resolvedInputs.then(inputs => ({code, map}))`:
`source` identifies the shared resolution promise being awaited (by the
specifiers it resolves), `result` is the value delivered once it settles.
The then-continuation ignores the resolved list (the `isEntryModule` branch
is commented out in the source), so `result` is fixed at transform time. -/
structure Deferred where
  source : List String
  result : TransformResult
deriving Repr, DecidableEq

/-- The per-build mutable state of one plugin instance: the captured entry
`inputs` and the memoized `resolvedInputs` promise (identified by the
specifiers handed to `this.resolveId`); `none` models the yet-unassigned
field. -/
structure PluginState where
  inputs : List String
  resolvedInputs : Option (List String)
deriving Repr, DecidableEq

/-- The `input` value rollup passes to the `options` hook: a single string, an
array of specifiers, or an object mapping output names to specifiers (the
entry list models the object's property enumeration order). -/
inductive RollupInput where
  | str (s : String)
  | arr (xs : List String)
  | obj (entries : List (String × String))
deriving Repr, DecidableEq

/-- The `options({input})` hook: a string is wrapped in a one-element array,
then any object (arrays included) is replaced by `Object.values` of it. The
returned list is the value stored in `inputs`. -/
def optionsHook (input : RollupInput) : List String :=
  let inputs := match input with
    | .str s => RollupInput.arr [s]
    | x => x
  match inputs with
  | .str s => [s]
  | .arr xs => xs
  | .obj entries => entries.map Prod.snd

/-- The initial per-build state after the `options` hook has run. -/
def initState (input : RollupInput) : PluginState :=
  ⟨optionsHook input, none⟩

/-- `outputOptions.banner && outputOptions.banner.length > 0` -/
def bannerNonEmpty : Option String → Bool
  | none => false
  | some s => decide (s.length > 0)

/-- The text-splice part of `transformChunk`: build the MagicString buffer,
remove the leading `define(` token (which throws when the code is shorter
than the token), prepend `[],` when the code does not start with `define([`,
prepend `define("<id>",`, and produce
`{code: magicCode.toString(), map: magicCode.generateMap({hires: true})}`. -/
def rewriteChunk (code : JSString) (chunk : Chunk) :
    Except LoaderError TransformResult :=
  let id := js "./" ++ js chunk.id
  let magicCode := MagicString.ofString code
  match magicCode.remove 0 (js "define(").length with
  | .error e => .error e
  | .ok magicCode =>
    let magicCode :=
      if ! (js "define([").isPrefixOf code then magicCode.prepend (js "[],")
      else magicCode
    let magicCode := magicCode.prepend (js "define(\"" ++ id ++ js "\",")
    .ok ⟨magicCode.toString, magicCode.generateMap true⟩

/-- `transformChunk(code, outputOptions, chunk)`. A `throw` — the loader's own
validation throws or the magic-string splice throw — is a synchronous
`.error`; the splice runs before the resolution block, as in the source. On
success the call returns the updated per-build state, the list of specifiers
passed to `this.resolveId` during this call (the resolution is triggered only
when `resolvedInputs` is still unset), and the deferred `{code, map}` chained
on the shared resolution promise. -/
def transformChunk (st : PluginState) (code : JSString) (outputOptions : OutputOptions)
    (chunk : Chunk) : Except LoaderError (PluginState × List String × Deferred) :=
  if outputOptions.format ≠ "amd" then
    .error (.thrown "You must set output.format to 'amd'")
  else if bannerNonEmpty outputOptions.banner then
    .error (.thrown "Loadz0r currently doesn’t work with `banner`. Feel free to submit a PR at https://github.com/surma/rollup-plugin-loadz0r")
  else
    match rewriteChunk code chunk with
    | .error e => .error e
    | .ok result =>
      match st.resolvedInputs with
      | some promise => .ok (st, [], ⟨promise, result⟩)
      | none =>
          .ok ({ st with resolvedInputs := some st.inputs }, st.inputs,
            ⟨st.inputs, result⟩)

/-- One `transformChunk` invocation as issued by the bundler. -/
structure TransformCall where
  code : JSString
  outputOptions : OutputOptions
  chunk : Chunk
deriving Repr, DecidableEq

/-- A sequence of `transformChunk` calls within one build, threading the
per-build state; collects the concatenated `resolveId` log and the deferred
results. -/
def runTransforms : PluginState → List TransformCall →
    Except LoaderError (PluginState × List String × List Deferred)
  | st, [] => .ok (st, [], [])
  | st, c :: cs =>
    match transformChunk st c.code c.outputOptions c.chunk with
    | .error e => .error e
    | .ok (st1, log, d) =>
      match runTransforms st1 cs with
      | .error e => .error e
      | .ok (st2, logs, ds) => .ok (st2, log ++ logs, d :: ds)

/-- Settlement of the shared `Promise.all(inputs.map(id => this.resolveId(id)))`
under a resolver: resolves to the list of fully qualified ids, or rejects with
the first rejection. -/
def settleResolution (resolve : String → Except String String) :
    List String → Except String (List String)
  | [] => .ok []
  | s :: rest =>
    match resolve s with
    | .error e => .error e
    | .ok v =>
      match settleResolution resolve rest with
      | .error e => .error e
      | .ok vs => .ok (v :: vs)

/-- Settlement of a deferred chunk result: the `{code, map}` value is delivered
only once the shared resolution promise has resolved; its rejection
propagates. -/
def settleDeferred (resolve : String → Except String String) (d : Deferred) :
    Except String TransformResult :=
  match settleResolution resolve d.source with
  | .error e => .error e
  | .ok _ => .ok d.result

theorem define_len : (js "define(").length = 7 := rfl

theorem defineLB_len : (js "define([").length = 8 := rfl

theorem eq_append_drop_of_isPrefixOf {p code : JSString} (h : p.isPrefixOf code = true) :
    code = p ++ code.drop p.length := by
  obtain ⟨t, ht⟩ := List.isPrefixOf_iff_prefix.mp h
  subst ht
  rw [List.drop_left]

theorem define_isPrefixOf_of_defineLB {code : JSString}
    (h : (js "define([").isPrefixOf code = true) :
    (js "define(").isPrefixOf code = true := by
  rw [List.isPrefixOf_iff_prefix] at h ⊢
  exact List.IsPrefix.trans (by decide) h

theorem rewriteChunk_short_error {code : JSString} (chunk : Chunk)
    (hlt : code.length < (js "define(").length) :
    rewriteChunk code chunk = .error (.thrown "Character is out of bounds") := by
  have h7 : code.length < 7 := by
    rw [define_len] at hlt
    exact hlt
  simp [rewriteChunk, MagicString.ofString, MagicString.remove, define_len, h7]

theorem rewriteChunk_ok_length {code : JSString} {chunk : Chunk}
    {res : TransformResult} (h : rewriteChunk code chunk = .ok res) :
    (js "define(").length ≤ code.length := by
  by_contra hlt
  rw [Nat.not_le] at hlt
  rw [rewriteChunk_short_error chunk hlt] at h
  exact Except.noConfusion h

theorem rewriteChunk_code_with_array (code : JSString) (chunk : Chunk)
    (hp : (js "define([").isPrefixOf code = true) :
    rewriteChunk code chunk =
      .ok ⟨js "define(\"./" ++ js chunk.id ++ js "\"," ++ code.drop (js "define(").length,
        ⟨true⟩⟩ := by
  have hlen : ¬ (code.length < 7) := by
    have h8 := (List.isPrefixOf_iff_prefix.mp hp).length_le
    rw [defineLB_len] at h8
    omega
  rw [show (js "define(\"./" : JSString) = js "define(\"" ++ js "./" from rfl]
  simp [rewriteChunk, hp, hlen, define_len, MagicString.ofString, MagicString.remove,
    MagicString.prepend, MagicString.toString, MagicString.generateMap]

theorem rewriteChunk_code_no_array (code : JSString) (chunk : Chunk)
    (hp : (js "define([").isPrefixOf code = false)
    (hlen : (js "define(").length ≤ code.length) :
    rewriteChunk code chunk =
      .ok ⟨js "define(\"./" ++ js chunk.id ++ js "\",[]," ++ code.drop (js "define(").length,
        ⟨true⟩⟩ := by
  have hlen7 : ¬ (code.length < 7) := by
    rw [define_len] at hlen
    omega
  rw [show (js "define(\"./" : JSString) = js "define(\"" ++ js "./" from rfl,
    show (js "\",[]," : JSString) = js "\"," ++ js "[]," from rfl]
  simp [rewriteChunk, hp, hlen7, define_len, MagicString.ofString, MagicString.remove,
    MagicString.prepend, MagicString.toString, MagicString.generateMap]

theorem transformChunk_ok_inv {st : PluginState} {code : JSString}
    {oo : OutputOptions} {chunk : Chunk} {st1 : PluginState}
    {log1 : List String} {d : Deferred}
    (hok : transformChunk st code oo chunk = .ok (st1, log1, d)) :
    rewriteChunk code chunk = .ok d.result ∧
      ((st.resolvedInputs = none ∧ st1 = ⟨st.inputs, some st.inputs⟩ ∧
          log1 = st.inputs ∧ d.source = st.inputs) ∨
        (st.resolvedInputs = some d.source ∧ st1 = st ∧ log1 = [])) := by
  unfold transformChunk at hok
  split at hok
  · exact Except.noConfusion hok
  · split at hok
    · exact Except.noConfusion hok
    · split at hok
      · exact Except.noConfusion hok
      · rename_i result hrw
        split at hok
        · rename_i promise hres
          simp only [Except.ok.injEq, Prod.mk.injEq] at hok
          obtain ⟨h1, h2, h3⟩ := hok
          subst h1
          subst h2
          subst h3
          exact ⟨hrw, Or.inr ⟨hres, rfl, rfl⟩⟩
        · rename_i hres
          simp only [Except.ok.injEq, Prod.mk.injEq] at hok
          obtain ⟨h1, h2, h3⟩ := hok
          subst h1
          subst h2
          subst h3
          exact ⟨hrw, Or.inl ⟨hres, rfl, rfl, rfl⟩⟩

theorem runTransforms_memo_inv {ins p : List String} {calls : List TransformCall}
    {st2 : PluginState} {log : List String} {ds : List Deferred}
    (hrun : runTransforms ⟨ins, some p⟩ calls = .ok (st2, log, ds)) :
    st2 = ⟨ins, some p⟩ ∧ log = [] ∧ ds.length = calls.length ∧
      ∀ d ∈ ds, d.source = p := by
  induction calls generalizing st2 log ds with
  | nil =>
    simp only [runTransforms, Except.ok.injEq, Prod.mk.injEq] at hrun
    obtain ⟨h1, h2, h3⟩ := hrun
    subst h1
    subst h2
    subst h3
    exact ⟨rfl, rfl, rfl, fun d hd => absurd hd (List.not_mem_nil d)⟩
  | cons c cs ih =>
    rw [runTransforms] at hrun
    split at hrun
    · exact Except.noConfusion hrun
    · rename_i st1 log1 d htc
      split at hrun
      · exact Except.noConfusion hrun
      · rename_i st2' logs ds' hrec
        simp only [Except.ok.injEq, Prod.mk.injEq] at hrun
        obtain ⟨h1, h2, h3⟩ := hrun
        obtain ⟨hrw, hcase⟩ := transformChunk_ok_inv htc
        rcases hcase with ⟨habs, -⟩ | ⟨hres, hst1, hlog1⟩
        · exact Option.noConfusion habs
        · subst hst1
          obtain ⟨hA, hB, hC, hD⟩ := ih hrec
          refine ⟨?_, ?_, ?_, ?_⟩
          · rw [← h1]
            exact hA
          · rw [← h2, hlog1, hB]
            rfl
          · rw [← h3]
            simp [hC]
          · intro d2 hd2
            rw [← h3] at hd2
            rcases List.mem_cons.mp hd2 with h | h
            · subst h
              exact (Option.some.inj hres).symm
            · exact hD d2 h

theorem runTransforms_fresh_inv {ins : List String} {c0 : TransformCall}
    {cs : List TransformCall} {st2 : PluginState} {log : List String}
    {ds : List Deferred}
    (hrun : runTransforms ⟨ins, none⟩ (c0 :: cs) = .ok (st2, log, ds)) :
    st2 = ⟨ins, some ins⟩ ∧ log = ins ∧ ds.length = cs.length + 1 ∧
      ∀ d ∈ ds, d.source = ins := by
  rw [runTransforms] at hrun
  split at hrun
  · exact Except.noConfusion hrun
  · rename_i st1 log1 d htc
    split at hrun
    · exact Except.noConfusion hrun
    · rename_i st2' logs ds' hrec
      simp only [Except.ok.injEq, Prod.mk.injEq] at hrun
      obtain ⟨h1, h2, h3⟩ := hrun
      obtain ⟨hrw, hcase⟩ := transformChunk_ok_inv htc
      rcases hcase with ⟨-, hst1, hlog1, hdsrc⟩ | ⟨habs, -, -⟩
      · subst hst1
        obtain ⟨hA, hB, hC, hD⟩ := runTransforms_memo_inv hrec
        refine ⟨?_, ?_, ?_, ?_⟩
        · rw [← h1]
          exact hA
        · rw [← h2, hlog1, hB]
          simp
        · rw [← h3]
          simp [hC]
        · intro d2 hd2
          rw [← h3] at hd2
          rcases List.mem_cons.mp hd2 with h | h
          · subst h
            exact hdsrc
          · exact hD d2 h
      · exact Option.noConfusion habs

theorem runTransforms_sources {ins : List String} {calls : List TransformCall}
    {st2 : PluginState} {log : List String} {ds : List Deferred}
    (hrun : runTransforms ⟨ins, none⟩ calls = .ok (st2, log, ds)) :
    ∀ d ∈ ds, d.source = ins := by
  cases calls with
  | nil =>
    simp only [runTransforms, Except.ok.injEq, Prod.mk.injEq] at hrun
    obtain ⟨-, -, h3⟩ := hrun
    subst h3
    intro d hd
    cases hd
  | cons c0 cs => exact (runTransforms_fresh_inv hrun).2.2.2

theorem settleResolution_error_of_mem (resolve : String → Except String String)
    {l : List String} {s : String} (hs : s ∈ l) {e : String}
    (he : resolve s = .error e) :
    ∃ err, settleResolution resolve l = .error err := by
  induction l with
  | nil => cases hs
  | cons a t ih =>
    rw [settleResolution]
    rcases List.mem_cons.mp hs with h | h
    · subst h
      rw [he]
      exact ⟨e, rfl⟩
    · cases ha : resolve a with
      | error e2 => exact ⟨e2, rfl⟩
      | ok v =>
        obtain ⟨err, herr⟩ := ih h
        rw [herr]
        exact ⟨err, rfl⟩

/-- Claim C4: for every input where outputOptions.format is not "amd",
transformChunk raises a synchronous error (an `.error`, not a deferred
rejection) whose message states that output format must be set to AMD, before
any text rewriting occurs — no code or map is produced and no state is
modified (the error carries no updated state). -/
theorem C4_invalid_format_sync_error (st : PluginState) (code : JSString)
    (oo : OutputOptions) (chunk : Chunk) (h : oo.format ≠ "amd") :
    transformChunk st code oo chunk =
      .error (.thrown "You must set output.format to 'amd'") := by
  simp [transformChunk, h]

theorem C4_invalid_format_sync_error_witness :
    ("cjs" : String) ≠ "amd" ∧
      transformChunk ⟨[], none⟩ (js "define(f)") ⟨"cjs", none⟩ ⟨"c"⟩ =
        .error (.thrown "You must set output.format to 'amd'") :=
  ⟨by decide, C4_invalid_format_sync_error _ _ _ _ (by decide)⟩

/-- Claim C5: for every input where outputOptions.banner is a non-empty string,
transformChunk fails with a synchronous error regardless of the value of
outputOptions.format, and no code or map is produced. -/
theorem C5_nonempty_banner_fails (st : PluginState) (code : JSString)
    (oo : OutputOptions) (chunk : Chunk) (s : String) (hb : oo.banner = some s)
    (hs : s ≠ "") :
    ∃ msg, transformChunk st code oo chunk = .error (.thrown msg) := by
  have hlen : bannerNonEmpty oo.banner = true := by
    rw [hb]
    simp only [bannerNonEmpty, decide_eq_true_eq]
    cases s with
    | mk l =>
      cases l with
      | nil => exact absurd rfl hs
      | cons a t => simp [String.length]
  by_cases hf : oo.format = "amd"
  · exact ⟨"Loadz0r currently doesn’t work with `banner`. Feel free to submit a PR at https://github.com/surma/rollup-plugin-loadz0r",
      by simp [transformChunk, hf, hlen]⟩
  · exact ⟨"You must set output.format to 'amd'", by simp [transformChunk, hf]⟩

theorem C5_nonempty_banner_fails_witness :
    (⟨"cjs", some "x"⟩ : OutputOptions).banner = some "x" ∧ ("x" : String) ≠ "" ∧
      ∃ msg, transformChunk ⟨[], none⟩ (js "define(f)") ⟨"cjs", some "x"⟩ ⟨"c"⟩ =
        .error (.thrown msg) :=
  ⟨rfl, by decide, C5_nonempty_banner_fails _ _ _ _ "x" rfl (by decide)⟩

/-- Claim C10: the two validation checks are ordered — when
outputOptions.format is not "amd" and outputOptions.banner is simultaneously a
non-empty string, the error raised is the output-format error, never the
banner error; and the banner error is reachable only when format equals
"amd". -/
theorem C10_format_checked_before_banner (st : PluginState) (code : JSString)
    (oo : OutputOptions) (chunk : Chunk) (s : String) (hf : oo.format ≠ "amd")
    (hb : oo.banner = some s) (hs : s ≠ "") :
    transformChunk st code oo chunk =
      .error (.thrown "You must set output.format to 'amd'") ∧
    ∀ (st2 : PluginState) (code2 : JSString) (oo2 : OutputOptions) (chunk2 : Chunk),
      transformChunk st2 code2 oo2 chunk2 =
        .error (.thrown "Loadz0r currently doesn’t work with `banner`. Feel free to submit a PR at https://github.com/surma/rollup-plugin-loadz0r") →
      oo2.format = "amd" := by
  constructor
  · simp [transformChunk, hf]
  · intro st2 code2 oo2 chunk2 h2
    by_cases hf2 : oo2.format = "amd"
    · exact hf2
    · simp [transformChunk, hf2] at h2

theorem C10_format_checked_before_banner_witness :
    ("cjs" : String) ≠ "amd" ∧
      (transformChunk ⟨[], none⟩ (js "define(f)") ⟨"cjs", some "b"⟩ ⟨"c"⟩ =
        .error (.thrown "You must set output.format to 'amd'") ∧
      ∀ (st2 : PluginState) (code2 : JSString) (oo2 : OutputOptions) (chunk2 : Chunk),
        transformChunk st2 code2 oo2 chunk2 =
          .error (.thrown "Loadz0r currently doesn’t work with `banner`. Feel free to submit a PR at https://github.com/surma/rollup-plugin-loadz0r") →
        oo2.format = "amd") :=
  ⟨by decide, C10_format_checked_before_banner _ _ _ _ "b" (by decide) rfl (by decide)⟩

/-- Claim C6: for every chunk, the derived module identifier is the chunk id
prefixed with "./" — whenever transformChunk produces a result at all (the
derivation sits before the splice, and short code makes the splice throw
instead of producing output), the rewritten code begins with
define(" ++ ./ ++ chunk.id ++ ", ; in particular chunk id "foo/bar" yields
module id "./foo/bar" (the witness instantiates that chunk id). -/
theorem C6_module_identifier (st : PluginState) (code : JSString) (oo : OutputOptions)
    (chunk : Chunk) (st1 : PluginState) (log1 : List String) (d : Deferred)
    (hok : transformChunk st code oo chunk = .ok (st1, log1, d)) :
    (js "define(\"" ++ js "./" ++ js chunk.id ++ js "\",").isPrefixOf
      d.result.code = true := by
  obtain ⟨hrw, -⟩ := transformChunk_ok_inv hok
  have hlen := rewriteChunk_ok_length hrw
  have hpre : ∀ rest : JSString,
      js "define(\"" ++ js "./" ++ js chunk.id ++ js "\"," <+:
        js "define(\"./" ++ js chunk.id ++ js "\"," ++ rest := by
    intro rest
    refine ⟨rest, ?_⟩
    rw [show (js "define(\"./" : JSString) = js "define(\"" ++ js "./" from rfl]
  rw [List.isPrefixOf_iff_prefix]
  cases hp : (js "define([").isPrefixOf code with
  | true =>
    rw [rewriteChunk_code_with_array code chunk hp] at hrw
    rw [← Except.ok.inj hrw]
    exact hpre _
  | false =>
    rw [rewriteChunk_code_no_array code chunk hp hlen] at hrw
    rw [← Except.ok.inj hrw]
    have heq : js "define(\"./" ++ js chunk.id ++ js "\",[]," ++
          code.drop (js "define(").length =
        js "define(\"./" ++ js chunk.id ++ js "\"," ++
          (js "[]," ++ code.drop (js "define(").length) := by
      rw [show (js "\",[]," : JSString) = js "\"," ++ js "[]," from rfl]
      simp
    rw [heq]
    exact hpre _

theorem C6_module_identifier_witness :
    transformChunk ⟨[], none⟩ (js "define(f)") ⟨"amd", none⟩ ⟨"foo/bar"⟩ =
      .ok (⟨[], some []⟩, [],
        ⟨[], ⟨js "define(\"./foo/bar\",[],f)", ⟨true⟩⟩⟩) ∧
    (js "define(\"" ++ js "./" ++ js (Chunk.mk "foo/bar").id ++ js "\",").isPrefixOf
      (⟨[], ⟨js "define(\"./foo/bar\",[],f)", ⟨true⟩⟩⟩ : Deferred).result.code = true :=
  ⟨rfl, C6_module_identifier ⟨[], none⟩ (js "define(f)") ⟨"amd", none⟩ ⟨"foo/bar"⟩
    ⟨[], some []⟩ [] ⟨[], ⟨js "define(\"./foo/bar\",[],f)", ⟨true⟩⟩⟩ rfl⟩

/-- Claim C7: the options hook normalizes the build input: a single string
input "src/index.js" is captured as the one-element list ["src/index.js"]; a
mapping (a : "x.js", b : "y.js") is captured as the list of its values
["x.js", "y.js"] in value insertion order with keys discarded; a sequence of
strings is captured as-is. -/
theorem C7_input_normalization :
    (∀ s : String, optionsHook (.str s) = [s]) ∧
    (∀ entries : List (String × String), optionsHook (.obj entries) = entries.map Prod.snd) ∧
    (∀ xs : List String, optionsHook (.arr xs) = xs) ∧
    optionsHook (.str "src/index.js") = ["src/index.js"] ∧
    optionsHook (.obj [("a", "x.js"), ("b", "y.js")]) = ["x.js", "y.js"] :=
  ⟨fun _ => rfl, fun _ => rfl, fun _ => rfl, rfl, rfl⟩

/-- Claim C1: for every chunk whose code begins with "define([" (a registration
call that already includes a dependency array), transformChunk with format "amd"
and no banner returns code equal to the original code with the leading "define("
token replaced by "define(\"./<chunk.id>\"," — the dependency array's contents
are preserved exactly (the code after the token is carried over verbatim) and
only the leading token and module name change. -/
theorem C1_dependency_array_preserved (st : PluginState) (code : JSString)
    (oo : OutputOptions) (chunk : Chunk) (hf : oo.format = "amd")
    (hb : bannerNonEmpty oo.banner = false)
    (hp : (js "define([").isPrefixOf code = true) :
    code = js "define(" ++ code.drop (js "define(").length ∧
    Except.map (fun r => r.2.2.result.code) (transformChunk st code oo chunk) =
      .ok (js "define(\"./" ++ js chunk.id ++ js "\"," ++
        code.drop (js "define(").length) := by
  constructor
  · exact eq_append_drop_of_isPrefixOf (define_isPrefixOf_of_defineLB hp)
  · cases hres : st.resolvedInputs <;>
      simp [transformChunk, hf, hb, hres, Except.map,
        rewriteChunk_code_with_array code chunk hp]

theorem C1_dependency_array_preserved_witness :
    (js "define([").isPrefixOf (js "define([\"dep\"],f)") = true ∧
      (js "define([\"dep\"],f)" =
        js "define(" ++ (js "define([\"dep\"],f)").drop (js "define(").length ∧
      Except.map (fun r => r.2.2.result.code)
        (transformChunk ⟨[], none⟩ (js "define([\"dep\"],f)") ⟨"amd", none⟩ ⟨"c1"⟩) =
        .ok (js "define(\"./" ++ js (Chunk.mk "c1").id ++ js "\"," ++
          (js "define([\"dep\"],f)").drop (js "define(").length)) :=
  ⟨by decide, C1_dependency_array_preserved _ _ _ _ rfl rfl (by decide)⟩

/-- Claim C2: for every chunk whose code begins with "define(" but not with
"define([" (registration call omitting the dependency array), transformChunk
with format "amd" and no banner returns code of the form
"define(\"./<chunk.id>\",[]," followed by the original code after the
"define(" token — an empty array literal immediately follows the module name. -/
theorem C2_empty_array_inserted (st : PluginState) (code : JSString)
    (oo : OutputOptions) (chunk : Chunk) (hf : oo.format = "amd")
    (hb : bannerNonEmpty oo.banner = false)
    (hp1 : (js "define(").isPrefixOf code = true)
    (hp2 : (js "define([").isPrefixOf code = false) :
    code = js "define(" ++ code.drop (js "define(").length ∧
    Except.map (fun r => r.2.2.result.code) (transformChunk st code oo chunk) =
      .ok (js "define(\"./" ++ js chunk.id ++ js "\",[]," ++
        code.drop (js "define(").length) := by
  have hlen : (js "define(").length ≤ code.length :=
    (List.isPrefixOf_iff_prefix.mp hp1).length_le
  constructor
  · exact eq_append_drop_of_isPrefixOf hp1
  · cases hres : st.resolvedInputs <;>
      simp [transformChunk, hf, hb, hres, Except.map,
        rewriteChunk_code_no_array code chunk hp2 hlen]

theorem C2_empty_array_inserted_witness :
    (js "define(").isPrefixOf (js "define(function(a)(a))") = true ∧
      (js "define([").isPrefixOf (js "define(function(a)(a))") = false ∧
      (js "define(function(a)(a))" =
        js "define(" ++ (js "define(function(a)(a))").drop (js "define(").length ∧
      Except.map (fun r => r.2.2.result.code)
        (transformChunk ⟨[], none⟩ (js "define(function(a)(a))") ⟨"amd", none⟩ ⟨"c2"⟩) =
        .ok (js "define(\"./" ++ js (Chunk.mk "c2").id ++ js "\",[]," ++
          (js "define(function(a)(a))").drop (js "define(").length)) :=
  ⟨by decide, by decide, C2_empty_array_inserted _ _ _ _ rfl rfl (by decide) (by decide)⟩

/-- Claim C9, counterexample: the claim asserts that for any code not starting
with "define(" (format "amd", no banner) the operation raises no error; at the
one-character code "x" the transform instead raises a synchronous error — the
out-of-bounds throw of magic-string's remove — because the code is shorter
than the removed "define(" token. -/
theorem C9_corrupted_output_counterexample :
    (js "define(").isPrefixOf (js "x") = false ∧
    transformChunk ⟨[], none⟩ (js "x") ⟨"amd", none⟩ ⟨"c"⟩ =
      .error (.thrown "Character is out of bounds") :=
  ⟨rfl, rfl⟩

/-- Claim C9 (amended): transformChunk never validates that the chunk code
actually begins with the AMD call token: for any code of length at least 7
that does not start with "define(" (with valid format "amd" and no banner),
the operation raises no error and still removes the first 7 characters of the
code, prepends "[]," (since the code does not start with "define(["), and
returns the resulting corrupted output. (Code shorter than 7 characters makes
magic-string's remove throw instead — see the counterexample.) -/
theorem C9_missing_token_not_validated (st : PluginState) (code : JSString)
    (oo : OutputOptions) (chunk : Chunk) (hf : oo.format = "amd")
    (hb : bannerNonEmpty oo.banner = false)
    (hnp : (js "define(").isPrefixOf code = false)
    (hlen : 7 ≤ code.length) :
    Except.map (fun r => r.2.2.result.code) (transformChunk st code oo chunk) =
      .ok (js "define(\"./" ++ js chunk.id ++ js "\",[]," ++ code.drop 7) := by
  have hp2 : (js "define([").isPrefixOf code = false := by
    cases hcl : (js "define([").isPrefixOf code
    · rfl
    · exact absurd (define_isPrefixOf_of_defineLB hcl) (by simp [hnp])
  have hlen7 : (js "define(").length ≤ code.length := by
    rw [define_len]
    exact hlen
  cases hres : st.resolvedInputs <;>
    simp [transformChunk, hf, hb, hres, Except.map, define_len,
      rewriteChunk_code_no_array code chunk hp2 hlen7]

theorem C9_missing_token_not_validated_witness :
    (js "define(").isPrefixOf (js "console.log(42)") = false ∧
      7 ≤ (js "console.log(42)").length ∧
      Except.map (fun r => r.2.2.result.code)
        (transformChunk ⟨[], none⟩ (js "console.log(42)") ⟨"amd", none⟩ ⟨"c9"⟩) =
        .ok (js "define(\"./" ++ js (Chunk.mk "c9").id ++ js "\",[]," ++
          (js "console.log(42)").drop 7) :=
  ⟨by decide, by decide, C9_missing_token_not_validated _ _ _ _ rfl rfl (by decide) (by decide)⟩

/-- Claim C3: within one build, entry-input resolution is computed at most
once. For every nonempty sequence of transformChunk calls that completes —
none of which waits for the resolution promise to settle, so in particular two
calls issued before it settles — the specifiers passed to this.resolveId
across the whole sequence are exactly the captured entry inputs, once each
(the middle component of the result is the concatenated resolveId log, and it
equals `ins`), and every call's deferred result is chained on that single
shared resolution promise stored in the final state. -/
theorem C3_resolution_memoized (ins : List String) (c0 : TransformCall)
    (cs : List TransformCall) (st2 : PluginState) (log : List String)
    (ds : List Deferred)
    (hrun : runTransforms ⟨ins, none⟩ (c0 :: cs) = .ok (st2, log, ds)) :
    log = ins ∧ st2 = ⟨ins, some ins⟩ ∧ ds.length = cs.length + 1 ∧
      ∀ d ∈ ds, d.source = ins := by
  obtain ⟨h1, h2, h3, h4⟩ := runTransforms_fresh_inv hrun
  exact ⟨h2, h1, h3, h4⟩

theorem C3_resolution_memoized_witness :
    runTransforms ⟨["a", "b"], none⟩
        [(⟨js "define(f)", ⟨"amd", none⟩, ⟨"c1"⟩⟩ : TransformCall),
         (⟨js "define([],g)", ⟨"amd", none⟩, ⟨"c2"⟩⟩ : TransformCall)] =
      .ok (⟨["a", "b"], some ["a", "b"]⟩, ["a", "b"],
        [⟨["a", "b"], ⟨js "define(\"./c1\",[],f)", ⟨true⟩⟩⟩,
         ⟨["a", "b"], ⟨js "define(\"./c2\",[],g)", ⟨true⟩⟩⟩]) ∧
    (["a", "b"] = ["a", "b"] ∧
      (⟨["a", "b"], some ["a", "b"]⟩ : PluginState) = ⟨["a", "b"], some ["a", "b"]⟩ ∧
      ([⟨["a", "b"], ⟨js "define(\"./c1\",[],f)", ⟨true⟩⟩⟩,
        ⟨["a", "b"], ⟨js "define(\"./c2\",[],g)", ⟨true⟩⟩⟩] : List Deferred).length =
        [(⟨js "define([],g)", ⟨"amd", none⟩, ⟨"c2"⟩⟩ : TransformCall)].length + 1 ∧
      ∀ d ∈ ([⟨["a", "b"], ⟨js "define(\"./c1\",[],f)", ⟨true⟩⟩⟩,
        ⟨["a", "b"], ⟨js "define(\"./c2\",[],g)", ⟨true⟩⟩⟩] : List Deferred),
        d.source = ["a", "b"]) :=
  ⟨rfl, C3_resolution_memoized ["a", "b"]
    (⟨js "define(f)", ⟨"amd", none⟩, ⟨"c1"⟩⟩ : TransformCall)
    [(⟨js "define([],g)", ⟨"amd", none⟩, ⟨"c2"⟩⟩ : TransformCall)]
    ⟨["a", "b"], some ["a", "b"]⟩ ["a", "b"]
    [⟨["a", "b"], ⟨js "define(\"./c1\",[],f)", ⟨true⟩⟩⟩,
     ⟨["a", "b"], ⟨js "define(\"./c2\",[],g)", ⟨true⟩⟩⟩] rfl⟩

/-- Claim C8: transformChunk's result is deferred — the (code, map) value of
every deferred result produced during a build is delivered through settlement
of the single shared entry-resolution promise (`settleDeferred` equals the
settlement of the shared resolution mapped to the chunk's value), and if the
entry-resolution step fails because some resolveId rejects, every chunk
transform awaiting that shared value, including all subsequent transform calls
in the same build, fails rather than producing partial output. -/
theorem C8_resolution_failure_propagates (ins : List String)
    (calls : List TransformCall) (resolve : String → Except String String)
    (st2 : PluginState) (log : List String) (ds : List Deferred)
    (hv : ∀ c ∈ calls, c.outputOptions.format = "amd" ∧
      bannerNonEmpty c.outputOptions.banner = false)
    (hrun : runTransforms ⟨ins, none⟩ calls = .ok (st2, log, ds)) :
    ∀ d ∈ ds,
      settleDeferred resolve d =
        Except.map (fun _ => d.result) (settleResolution resolve ins) ∧
      ∀ s ∈ ins, ∀ e, resolve s = .error e →
        ∃ err, settleDeferred resolve d = .error err := by
  intro d hd
  have hsrc : d.source = ins := runTransforms_sources hrun d hd
  constructor
  · rw [settleDeferred, hsrc]
    cases settleResolution resolve ins <;> rfl
  · intro s hs e he
    obtain ⟨err, herr⟩ := settleResolution_error_of_mem resolve hs he
    exact ⟨err, by rw [settleDeferred, hsrc, herr]⟩

theorem C8_resolution_failure_propagates_witness :
    (∀ c ∈ [(⟨js "define(f)", ⟨"amd", none⟩, ⟨"c"⟩⟩ : TransformCall)],
      c.outputOptions.format = "amd" ∧ bannerNonEmpty c.outputOptions.banner = false) ∧
    runTransforms ⟨["a"], none⟩ [(⟨js "define(f)", ⟨"amd", none⟩, ⟨"c"⟩⟩ : TransformCall)] =
      .ok (⟨["a"], some ["a"]⟩, ["a"],
        [⟨["a"], ⟨js "define(\"./c\",[],f)", ⟨true⟩⟩⟩]) ∧
    ∀ d ∈ [(⟨["a"], ⟨js "define(\"./c\",[],f)", ⟨true⟩⟩⟩ : Deferred)],
      settleDeferred (fun _ => Except.error "boom") d =
        Except.map (fun _ => d.result)
          (settleResolution (fun _ => Except.error "boom") ["a"]) ∧
      ∀ s ∈ ["a"], ∀ e, (fun _ => Except.error "boom" : String → Except String String) s =
          .error e →
        ∃ err, settleDeferred (fun _ => Except.error "boom") d = .error err :=
  ⟨by decide, rfl,
    C8_resolution_failure_propagates ["a"]
      [(⟨js "define(f)", ⟨"amd", none⟩, ⟨"c"⟩⟩ : TransformCall)]
      (fun _ => Except.error "boom") ⟨["a"], some ["a"]⟩ ["a"]
      [⟨["a"], ⟨js "define(\"./c\",[],f)", ⟨true⟩⟩⟩] (by decide) rfl⟩
